import Mathlib

/- ============================================================================
   Verification development for a small S-expression interpreter (src/main.c).

   The tagged value type `pval` of the C source is embedded as the inductive
   `Pval`; C doubles are modelled as exact rationals (ℚ); C strings as Lean
   `String` / `List Char`; the fixed builtin function pointers as the
   enumeration `BuiltinId` (there are no closures, the set is closed).
   ============================================================================ -/

set_option maxRecDepth 10000

/-- The six variant tags of the C `pval_t` enum. -/
inductive PvalT where
  | number | boolean | symbol | list | function | error
deriving DecidableEq, Repr

/-- The builtin operations registered in the C `builtins[]` table; a
`PVAL_FUNCTION` value carries a pointer to one of exactly these six. -/
inductive BuiltinId where
  | add | sub | mul | div | eq | quit
deriving DecidableEq, Repr

/-- The C `pval` tagged union (src/main.c `struct pval`): only the fields
relevant to the active tag are carried. -/
inductive Pval where
  | number (n : ℚ)
  | boolean (b : Bool)
  | symbol (s : String)
  | list (items : List Pval)
  | function (f : BuiltinId)
  | error (etype : String) (emsg : String)

/-- The tag of a value (the `type` field of the C struct). -/
def Pval.tag : Pval → PvalT
  | .number _ => .number
  | .boolean _ => .boolean
  | .symbol _ => .symbol
  | .list _ => .list
  | .function _ => .function
  | .error _ _ => .error

/-- Whether a value is error-tagged (`type == PVAL_ERROR`). -/
def Pval.isError : Pval → Bool
  | .error _ _ => true
  | _ => false

/-- `builtin_add`: running sum loop over the arguments; a non-number argument
stops the loop with a TypeError (src/main.c:372-385). -/
def addLoop (acc : ℚ) : List Pval → Pval
  | [] => .number acc
  | .number n :: rest => addLoop (acc + n) rest
  | _ => .error "TypeError" "Arguments to + must be numbers"

def builtin_add (args : List Pval) : Pval :=
  if args.length = 0 then .number 0
  else addLoop 0 args

/-- `builtin_sub` (src/main.c:387-404): checks arity 0, then the first
argument's type, then dispatches on arity 1 / 2 / more. -/
def builtin_sub (args : List Pval) : Pval :=
  match args with
  | [] => .error "ArityError" "'-' requires at least one argument"
  | first :: rest =>
    match first with
    | .number x =>
      match rest with
      | [] => .number (-x)
      | [second] =>
        match second with
        | .number y => .number (x - y)
        | _ => .error "TypeError" "Second argument to - must be a number"
      | _ => .error "ArityError" "'-' currently supports 1 or 2 arguments"
    | _ => .error "TypeError" "First argument to - must be a number"

/-- `builtin_mul`: running product loop (src/main.c:406-419). -/
def mulLoop (acc : ℚ) : List Pval → Pval
  | [] => .number acc
  | .number n :: rest => mulLoop (acc * n) rest
  | _ => .error "TypeError" "Arguments to * must be numbers"

def builtin_mul (args : List Pval) : Pval :=
  if args.length = 0 then .number 1
  else mulLoop 1 args

/-- `builtin_div` (src/main.c:421-432): exactly two numeric arguments, the
divisor compared against zero with `== 0.0`. -/
def builtin_div (args : List Pval) : Pval :=
  match args with
  | [a, b] =>
    match a, b with
    | .number x, .number y =>
      if y = 0 then .error "DivisionByZeroError" "Division by zero"
      else .number (x / y)
    | _, _ => .error "TypeError" "Arguments to / must be numbers"
  | _ => .error "ArityError" "'/' requires exactly 2 arguments"

/-- `builtin_eq` (src/main.c:434-456): exactly two arguments; different tags
compare as false; numbers by `fabs(a-b) < 1e-10`; booleans and symbols by
exact value; every other same-tag pair is a TypeError. -/
def builtin_eq (args : List Pval) : Pval :=
  match args with
  | [a, b] =>
    if a.tag ≠ b.tag then .boolean false
    else
      match a, b with
      | .number x, .number y => .boolean (decide (|x - y| < 1 / 10 ^ 10))
      | .boolean p, .boolean q => .boolean (p == q)
      | .symbol s, .symbol t => .boolean (s == t)
      | _, _ => .error "TypeError" "Unsupported types for equality comparison"
  | _ => .error "ArityError" "'=' requires exactly 2 arguments"

/-- `builtin_quit` (src/main.c:458-463). -/
def builtin_quit (args : List Pval) : Pval :=
  match args with
  | [] => .symbol "quitting"
  | _ => .error "ArityError" "quit takes no arguments"

/-- The registry `builtins[]` (src/main.c:471-479), in table order. -/
def builtins : List (String × BuiltinId) :=
  [("+", .add), ("-", .sub), ("*", .mul), ("/", .div), ("=", .eq), ("quit", .quit)]

/-- Linear lookup of a symbol in the registry (src/main.c:498-502). -/
def lookupBuiltin (s : String) : Option BuiltinId :=
  (builtins.find? (fun p => p.1 == s)).map (·.2)

/-- Dispatch of a function value to its builtin body. -/
def applyBuiltin : BuiltinId → List Pval → Pval
  | .add => builtin_add
  | .sub => builtin_sub
  | .mul => builtin_mul
  | .div => builtin_div
  | .eq => builtin_eq
  | .quit => builtin_quit

mutual

/-- `pval_eval` (src/main.c:481-588).  Numbers, booleans and errors evaluate
to fresh copies of themselves; a symbol resolves against the builtins
registry; an empty list evaluates to an empty list; a non-empty list first
evaluates every element left-to-right stopping at the first error, then
requires a function head and applies it to the remaining elements; any other
shape (i.e. a function value) falls through to the defensive catch-all. -/
def pval_eval : Pval → Pval
  | .number n => .number n
  | .boolean b => .boolean b
  | .error t m => .error t m
  | .symbol s =>
    match lookupBuiltin s with
    | some f => .function f
    | none => .error "UnboundError" "Symbol not bound to a function"
  | .list items =>
    match items with
    | [] => .list []
    | _ :: _ =>
      match evalItems items with
      | .error e => e
      | .ok vs =>
        match vs with
        | .function f :: argvals => applyBuiltin f argvals
        | _ => .error "InapplicableHeadError" "Expression head is not a function"
  | .function _ => .error "EvalError" "Unsupported pval type for evaluation"

/-- The element loop of `pval_eval` on lists (src/main.c:520-540): evaluate
each element in order; the first error-tagged result is returned (as a fresh
copy) and no later element is evaluated. -/
def evalItems : List Pval → Except Pval (List Pval)
  | [] => .ok []
  | x :: xs =>
    match pval_eval x with
    | .error t m => .error (.error t m)
    | v =>
      match evalItems xs with
      | .error e => .error e
      | .ok vs => .ok (v :: vs)

end

/- ============================================================================
   Rendering (`pval_print`, src/main.c:223-259), modelled as a String-valued
   function.  The C number case compares `number == (int32_t)number` and
   prints `%d` of the cast when equal, `%.3f` otherwise.  The out-of-range
   double-to-int32 conversion saturates on the Arm64 target named in the
   source header; only in-range casts are relied on below, and any cast
   result necessarily lies in the int32 range.
   ============================================================================ -/

/-- `-2^31`. -/
def INT32_MIN : Int := -2147483648
/-- `2^31 - 1`. -/
def INT32_MAX : Int := 2147483647

/-- Truncation toward zero of a rational (the fractional-part-dropping step
of the C double-to-int conversion). -/
def ratTrunc (q : ℚ) : Int := q.num.tdiv q.den

/-- The `(int32_t)number` conversion. -/
def castInt32 (q : ℚ) : Int :=
  let t := ratTrunc q
  if t < INT32_MIN then INT32_MIN else if t > INT32_MAX then INT32_MAX else t

/-- Round to nearest, ties to even (the rounding `printf` applies for
`%.3f`). -/
def rne (q : ℚ) : Int :=
  let f := Int.floor q
  let r := q - f
  if r < 1 / 2 then f
  else if 1 / 2 < r then f + 1
  else if f % 2 = 0 then f else f + 1

/-- Zero padding of the three fractional digits, `0 ≤ n < 1000`. -/
def pad3 (n : Int) : String :=
  (if n < 100 then (if n < 10 then "00" else "0") else "") ++ toString n

/-- The `%.3f` rendering of a number. -/
def fixed3 (q : ℚ) : String :=
  let m := rne (|q| * 1000)
  (if q < 0 then "-" else "") ++ toString (m / 1000) ++ "." ++ pad3 (m % 1000)

mutual

/-- `pval_print` (src/main.c:223-259), as the text it writes. -/
def pval_print : Pval → String
  | .number q =>
    if q = ((castInt32 q : Int) : ℚ) then toString (castInt32 q)
    else fixed3 q
  | .boolean b => if b then "#t" else "#f"
  | .symbol s => s
  | .list items => "(" ++ printItems items ++ ")"
  | .error t m => "$error\x7b" ++ t ++ " " ++ m ++ "\x7d"
  | .function _ => "<function>"

/-- The element loop of the list case: elements separated by single spaces. -/
def printItems : List Pval → String
  | [] => ""
  | [x] => pval_print x
  | x :: xs => pval_print x ++ " " ++ printItems xs

end

/- ============================================================================
   `pval_add` (src/main.c:262-286), the append operation, modelled on the raw
   struct fields: `count` and `capacity` are the two int32 bookkeeping fields
   and `slots` the allocated buffer (one entry per allocated slot, `none` for
   an uninitialized slot).  A NULL or non-list target and a NULL item are the
   other argument shapes the C function accepts.
   ============================================================================ -/

structure RawList where
  count : Int
  capacity : Int
  slots : List (Option Pval)

inductive AddTarget where
  | absent
  | nonList (p : Pval)
  | list (l : RawList)

/-- `SIZE_MAX / 2` for the 64-bit target, i.e. `2^63 - 1`. -/
def SIZE_MAX_HALF : Int := 9223372036854775807

/-- Two's-complement truncation of the size_t `new_capacity` when stored back
into the int32 `list_capacity` field (the implementation-defined conversion
on the target): `(n + 2^31) mod 2^32 - 2^31`. -/
def wrap32 (n : Int) : Int := (n + 2147483648) % 4294967296 - 2147483648

/-- `realloc` of the slot buffer to `n` slots: the common prefix is
preserved, new slots are uninitialized. -/
def resizeSlots (slots : List (Option Pval)) (n : Nat) : List (Option Pval) :=
  slots.take n ++ List.replicate (n - slots.length) none

def pval_add (target : AddTarget) (item : Option Pval) : AddTarget :=
  match target, item with
  | .absent, _ => .absent
  | .nonList p, _ => .nonList p
  | .list l, none => .list l
  | .list l, some it =>
    if l.count < 0 ∨ l.capacity ≤ 0 then .list l
    else if l.count ≥ l.capacity ∧ l.capacity > SIZE_MAX_HALF then .list l
    else
      let l1 : RawList :=
        if l.count ≥ l.capacity then
          { count := l.count, capacity := wrap32 (l.capacity * 2),
            slots := resizeSlots l.slots (l.capacity * 2).toNat }
        else l
      if l1.count < l1.capacity then
        .list { count := l1.count + 1, capacity := l1.capacity,
                slots := l1.slots.set l1.count.toNat (some it) }
      else .list l1

/- ============================================================================
   The parser (`pval_parse`, src/main.c:295-362).  The cursor is modelled as
   the list of characters not yet consumed; the C NULL return (end of input)
   is `none`.  Recursion is driven by a fuel parameter: every loop iteration
   and every nesting step consumes at least one character, so the fuel
   `2 * length + 2` supplied by `pval_parse` is never exhausted; the
   "InternalError" fuel value never escapes and is error-tagged, so no
   success-shaped result can come from it.  The `strtod` model covers the
   decimal forms (sign, digits, decimal point, optional exponent) that the
   grammar of this interpreter's numeric branch feeds it; hexadecimal and
   infinity/nan spellings are not modelled.
   ============================================================================ -/

/-- C-locale `isspace`. -/
def isspaceC (c : Char) : Bool :=
  c == ' ' || c == '\t' || c == '\n' || c == '\x0b' || c == '\x0c' || c == '\r'

/-- C-locale `isdigit`. -/
def isdigitC (c : Char) : Bool := '0' ≤ c && c ≤ '9'

/-- `skip_whitespace` (src/main.c:289-293). -/
def skipWs (s : List Char) : List Char := s.dropWhile isspaceC

def digitVal (c : Char) : Nat := c.toNat - 48

def digitsToNat (ds : List Char) : Nat := ds.foldl (fun a c => 10 * a + digitVal c) 0

/-- The optional sign of the significand. -/
def strtodSign (s : List Char) : ℚ × List Char :=
  match s with
  | '-' :: t => (-1, t)
  | '+' :: t => (1, t)
  | _ => (1, s)

/-- The optional sign of the exponent. -/
def strtodESign (s : List Char) : Int × List Char :=
  match s with
  | '-' :: t => (-1, t)
  | '+' :: t => (1, t)
  | _ => (1, s)

/-- The optional decimal point and fraction digits. -/
def strtodFrac (s : List Char) : List Char × List Char :=
  match s with
  | '.' :: t => (t.takeWhile isdigitC, t.dropWhile isdigitC)
  | _ => ([], s)

/-- The optional exponent part: consumed only when at least one exponent
digit follows the `e`/`E` (and optional sign). -/
def strtodExp (mant : ℚ) (s : List Char) : ℚ × List Char :=
  match s with
  | e :: t =>
    if e = 'e' ∨ e = 'E' then
      let ep := strtodESign t
      let eds := ep.2.takeWhile isdigitC
      if eds.isEmpty then (mant, s)
      else (mant * 10 ^ (ep.1 * digitsToNat eds), ep.2.dropWhile isdigitC)
    else (mant, s)
  | [] => (mant, [])

/-- Decimal `strtod`: `none` models `end_ptr == input` (no conversion). -/
def strtodM (s : List Char) : Option (ℚ × List Char) :=
  let sp := strtodSign s
  let s1 := sp.2
  let ip := s1.takeWhile isdigitC
  let s2 := s1.dropWhile isdigitC
  let fr := strtodFrac s2
  let fp := fr.1
  let s3 := fr.2
  if ip.isEmpty && fp.isEmpty then none
  else
    some (strtodExp
      (sp.1 * ((digitsToNat ip : ℚ) + (digitsToNat fp : ℚ) / 10 ^ fp.length)) s3)

/-- The token characters of the symbol branch (src/main.c:348-349): anything
up to NUL, whitespace, or a parenthesis. -/
def isSymChar (c : Char) : Bool :=
  c != '\x00' && !isspaceC c && c != '(' && c != ')'

/-- Whether the next character begins the numeric branch
(src/main.c:330-331): a digit, a minus directly followed by a digit, or a
decimal point. -/
def numStart (c : Char) (rest : List Char) : Bool :=
  isdigitC c || (c == '-' && (match rest with | d :: _ => isdigitC d | [] => false)) || c == '.'

/-- Whether the cursor starts with the exact two characters of a boolean
literal (the `strncmp(*input_ptr, lit, 2) == 0` tests, src/main.c:339-344). -/
def startsWith2 (c1 c2 : Char) : List Char → Bool
  | a :: b :: _ => a == c1 && b == c2
  | _ => false

mutual

/-- `pval_parse` body (src/main.c:295-362) at a given fuel. -/
def parseF : Nat → List Char → Option Pval × List Char
  | 0, s => (some (.error "InternalError" "parser fuel exhausted"), s)
  | fuel + 1, s0 => parseAtom fuel (skipWs s0)

/-- The dispatch of `pval_parse` after `skip_whitespace`, on the remaining
cursor. -/
def parseAtom : Nat → List Char → Option Pval × List Char
  | _, [] => (none, [])
  | fuel, c :: rest =>
    if c = '(' then
      parseListF fuel [] rest
    else if numStart c rest then
      match strtodM (c :: rest) with
      | none => (some (.error "SyntaxError" "Invalid number format"), c :: rest)
      | some (v, t) => (some (.number v), t)
    else if startsWith2 '#' 't' (c :: rest) then
      (some (.boolean true), (c :: rest).drop 2)
    else if startsWith2 '#' 'f' (c :: rest) then
      (some (.boolean false), (c :: rest).drop 2)
    else
      if ((c :: rest).takeWhile isSymChar).length ≥ 256 then
        (some (.error "SyntaxError" "Symbol too long"), (c :: rest).drop 255)
      else if ((c :: rest).takeWhile isSymChar).length = 0 then
        (some (.error "SyntaxError" "Empty symbol or unparsable token"), c :: rest)
      else (some (.symbol (String.mk ((c :: rest).takeWhile isSymChar))),
            (c :: rest).drop ((c :: rest).takeWhile isSymChar).length)

/-- The list loop of `pval_parse` (src/main.c:301-329): `acc` is the list
built so far, starting just after the opening parenthesis. -/
def parseListF : Nat → List Pval → List Char → Option Pval × List Char
  | 0, _, s => (some (.error "InternalError" "parser fuel exhausted"), s)
  | fuel + 1, acc, s0 => parseListStep fuel acc (skipWs s0)

/-- One whitespace-skipped iteration of the list loop, on the remaining
cursor. -/
def parseListStep : Nat → List Pval → List Char → Option Pval × List Char
  | _, _, [] => (some (.error "SyntaxError" "Unexpected EOF, expected ')'"), [])
  | fuel, acc, c :: rest =>
    if c = ')' then (some (.list acc), rest)
    else
      match parseF fuel (c :: rest) with
      | (none, t) => (some (.error "SyntaxError" "Invalid expression inside list"), t)
      | (some p, t) =>
        if p.isError then (some p, t)
        else parseListF fuel (acc ++ [p]) t

end

/-- `pval_parse` on a whole cursor. -/
def pval_parse (s : List Char) : Option Pval × List Char := parseF (2 * s.length + 2) s

/- ============================================================================
   Theorems
   ============================================================================ -/

/-- C9: a Function-tagged value is not self-evaluating: it falls through the
number/boolean/error, symbol and list cases of `pval_eval` to the defensive
catch-all, which returns the EvalError "Unsupported pval type for
evaluation". -/
theorem claim_C9 :
    ∀ f : BuiltinId,
      pval_eval (.function f) = .error "EvalError" "Unsupported pval type for evaluation" := by
  intro f
  rfl

/-- C4: `=` requires exactly two arguments (otherwise ArityError); arguments
with different variant tags compare to the boolean false; two booleans and
two symbols compare by exact value; two lists, two functions or two errors
yield a TypeError. -/
theorem claim_C4 :
    (∀ args : List Pval, args.length ≠ 2 →
      builtin_eq args = .error "ArityError" "'=' requires exactly 2 arguments")
  ∧ (∀ a b : Pval, a.tag ≠ b.tag → builtin_eq [a, b] = .boolean false)
  ∧ (∀ p q : Bool, builtin_eq [.boolean p, .boolean q] = .boolean (p == q))
  ∧ (∀ s t : String, builtin_eq [.symbol s, .symbol t] = .boolean (s == t))
  ∧ (∀ xs ys : List Pval, builtin_eq [.list xs, .list ys] =
      .error "TypeError" "Unsupported types for equality comparison")
  ∧ (∀ f g : BuiltinId, builtin_eq [.function f, .function g] =
      .error "TypeError" "Unsupported types for equality comparison")
  ∧ (∀ t1 m1 t2 m2 : String, builtin_eq [.error t1 m1, .error t2 m2] =
      .error "TypeError" "Unsupported types for equality comparison") := by
  refine ⟨?_, ?_, ?_, ?_, ?_, ?_, ?_⟩
  · intro args h
    match args with
    | [] => rfl
    | [_] => rfl
    | [_, _] => simp at h
    | _ :: _ :: _ :: _ => rfl
  · intro a b hab
    cases a <;> cases b <;> simp_all [builtin_eq, Pval.tag]
  · intro p q; rfl
  · intro s t; rfl
  · intro xs ys; rfl
  · intro f g; rfl
  · intro t1 m1 t2 m2; rfl

/-- Witness for C4 at concrete inputs. -/
theorem claim_C4_witness :
    builtin_eq [] = .error "ArityError" "'=' requires exactly 2 arguments"
  ∧ builtin_eq [.number 1, .boolean true] = .boolean false :=
  ⟨claim_C4.1 [] (by simp),
   claim_C4.2.1 (.number 1) (.boolean true) (by simp [Pval.tag])⟩

/-- C2, counterexample: the claim asserts that `=` on the two numbers
1.0000000001 and 1.0 yields the boolean true; the code yields the boolean
false, because the absolute difference is not strictly below the 1e-10
tolerance (in exact arithmetic it equals 1e-10; under the C doubles it is
about 1.00000008e-10). -/
theorem claim_C2_counterexample :
    builtin_eq [.number (1.0000000001 : ℚ), .number 1] = .boolean false
  ∧ Pval.boolean false ≠ Pval.boolean true := by
  constructor
  · have e : |(1.0000000001 : ℚ) - 1| = 1 / 10 ^ 10 := by
      rw [show (1.0000000001 : ℚ) - 1 = 1 / 10 ^ 10 by norm_num]
      exact abs_of_pos (by norm_num)
    simp [builtin_eq, Pval.tag, e]
  · simp

/-- C2, amended: `=` on (1.0000000001, 1.0) yields the boolean false (the
absolute difference is not strictly below the tolerance), `=` on (1.1, 1.0)
yields the boolean false, and numeric equality is decided by the strict
absolute-difference test |a - b| < 1e-10. -/
theorem claim_C2 :
    builtin_eq [.number (1.0000000001 : ℚ), .number 1] = .boolean false
  ∧ builtin_eq [.number (1.1 : ℚ), .number 1] = .boolean false
  ∧ (∀ x y : ℚ, builtin_eq [.number x, .number y] =
      .boolean (decide (|x - y| < 1 / 10 ^ 10))) := by
  refine ⟨?_, ?_, ?_⟩
  · have e : |(1.0000000001 : ℚ) - 1| = 1 / 10 ^ 10 := by
      rw [show (1.0000000001 : ℚ) - 1 = 1 / 10 ^ 10 by norm_num]
      exact abs_of_pos (by norm_num)
    simp [builtin_eq, Pval.tag, e]
  · have e : |(1.1 : ℚ) - 1| = 1 / 10 := by
      rw [show (1.1 : ℚ) - 1 = 1 / 10 by norm_num]
      exact abs_of_pos (by norm_num)
    simp [builtin_eq, Pval.tag, e]
    norm_num
  · intro x y; rfl

/-- C5, counterexample: the claim asserts that `-` applied to three or more
arguments returns an ArityError; with a non-number first argument the code
returns a TypeError instead (the first-argument type check runs before the
three-or-more arity check). -/
theorem claim_C5_counterexample :
    builtin_sub [.boolean true, .number 1, .number 2] =
      .error "TypeError" "First argument to - must be a number"
  ∧ ("TypeError" : String) ≠ "ArityError" := by
  exact ⟨rfl, by simp⟩

/-- C5, amended: `+` over zero arguments returns 0 and `*` over zero
arguments returns 1; `-` negates a single number argument, subtracts the
second of two number arguments from the first, and returns an ArityError for
zero arguments or for three-or-more arguments whose first argument is a
number (with a non-number first argument the TypeError takes precedence). -/
theorem claim_C5 :
    builtin_add [] = .number 0
  ∧ builtin_mul [] = .number 1
  ∧ (∀ x : ℚ, builtin_sub [.number x] = .number (-x))
  ∧ (∀ x y : ℚ, builtin_sub [.number x, .number y] = .number (x - y))
  ∧ builtin_sub [] = .error "ArityError" "'-' requires at least one argument"
  ∧ (∀ (x : ℚ) (rest : List Pval), 2 ≤ rest.length →
      builtin_sub (.number x :: rest) =
        .error "ArityError" "'-' currently supports 1 or 2 arguments")
  ∧ (∀ (p : Pval) (rest : List Pval), p.tag ≠ .number →
      builtin_sub (p :: rest) =
        .error "TypeError" "First argument to - must be a number") := by
  refine ⟨rfl, rfl, fun x => rfl, fun x y => rfl, rfl, ?_, ?_⟩
  · intro x rest h
    match rest with
    | [] => simp at h
    | [_] => simp at h
    | _ :: _ :: _ => rfl
  · intro p rest h
    cases p <;> simp_all [Pval.tag] <;> rfl

/-- Witness for C5 at concrete inputs. -/
theorem claim_C5_witness :
    builtin_sub [.number 5, .number 1, .number 1] =
      .error "ArityError" "'-' currently supports 1 or 2 arguments"
  ∧ builtin_sub [.symbol "x"] =
      .error "TypeError" "First argument to - must be a number" :=
  ⟨claim_C5.2.2.2.2.2.1 5 [.number 1, .number 1] (by simp),
   claim_C5.2.2.2.2.2.2 (.symbol "x") [] (by simp [Pval.tag])⟩

/-- Helper: the element loop stops at the first error-evaluating element and
returns (a copy of) that error, independent of the elements after it. -/
theorem evalItems_append_error (pre : List Pval) (y : Pval) (post : List Pval)
    (hpre : ∀ x ∈ pre, (pval_eval x).isError = false)
    (t m : String) (hy : pval_eval y = .error t m) :
    evalItems (pre ++ y :: post) = .error (.error t m) := by
  induction pre with
  | nil => simp [evalItems, hy]
  | cons x xs ih =>
    have hx := hpre x (by simp)
    have ih' := ih (fun z hz => hpre z (by simp [hz]))
    simp only [List.cons_append, evalItems]
    cases hveq : pval_eval x with
    | error t' m' => rw [hveq] at hx; simp [Pval.isError] at hx
    | number n => simp [ih']
    | boolean b => simp [ih']
    | symbol s => simp [ih']
    | list items => simp [ih']
    | function f => simp [ih']

/-- Helper: a non-empty list whose element loop produced an error evaluates
to that error. -/
theorem pval_eval_list_of_evalItems_error (items : List Pval) (hne : items ≠ [])
    (e : Pval) (he : evalItems items = .error e) :
    pval_eval (.list items) = e := by
  cases items with
  | nil => exact absurd rfl hne
  | cons a as => simp [pval_eval, he]

/-- C1: a non-empty list evaluates its elements left-to-right including the
head; the first element whose evaluation is error-tagged becomes the overall
result and no later element is evaluated (the result does not depend on the
elements after it).  In particular (+ 1 (/ 1 0) x) evaluates to the single
DivisionByZeroError for every tail x, so undefined-symbol is never
resolved. -/
theorem claim_C1 :
    (∀ (pre : List Pval) (y : Pval) (post : List Pval) (t m : String),
      (∀ x ∈ pre, (pval_eval x).isError = false) →
      pval_eval y = .error t m →
      pval_eval (.list (pre ++ y :: post)) = .error t m)
  ∧ (∀ post : List Pval,
      pval_eval (.list ([.symbol "+", .number 1,
          .list [.symbol "/", .number 1, .number 0]] ++ post)) =
        .error "DivisionByZeroError" "Division by zero") := by
  constructor
  · intro pre y post t m hpre hy
    exact pval_eval_list_of_evalItems_error (pre ++ y :: post) (by simp)
      (.error t m) (evalItems_append_error pre y post hpre t m hy)
  · intro post
    refine pval_eval_list_of_evalItems_error _ (by simp) _ ?_
    exact evalItems_append_error [.symbol "+", .number 1]
      (.list [.symbol "/", .number 1, .number 0]) post
      (by intro x hx
          simp only [List.mem_cons, List.not_mem_nil, or_false] at hx
          rcases hx with h | h <;> subst h <;> rfl)
      "DivisionByZeroError" "Division by zero" (by rfl)

/-- Witness for C1: the first error-evaluating element of
(1 undefined-symbol #t) is the unbound symbol, and its UnboundError is the
overall result. -/
theorem claim_C1_witness :
    pval_eval (.list [.number 1, .symbol "undefined-symbol", .boolean true]) =
      .error "UnboundError" "Symbol not bound to a function" := by
  have h := claim_C1.1 [.number 1] (.symbol "undefined-symbol") [.boolean true]
    "UnboundError" "Symbol not bound to a function"
    (by intro x hx
        simp only [List.mem_singleton] at hx
        subst hx; rfl)
    (by rfl)
  exact h

/-- Helper: the clamp of the double-to-int32 conversion always lands in the
int32 range. -/
theorem castInt32_range (q : ℚ) : INT32_MIN ≤ castInt32 q ∧ castInt32 q ≤ INT32_MAX := by
  unfold castInt32 INT32_MIN INT32_MAX
  by_cases h1 : ratTrunc q < INT32_MIN
  · unfold INT32_MIN at h1
    simp [h1]
  · unfold INT32_MIN at h1
    by_cases h2 : ratTrunc q > INT32_MAX
    · unfold INT32_MAX at h2
      simp [h1, h2]
    · unfold INT32_MAX at h2
      simp only [h1, h2, if_false]
      omega

/-- Helper: on an integer-valued rational inside the int32 range the
conversion is the identity on the numerator. -/
theorem castInt32_eq_num (q : ℚ) (hden : q.den = 1)
    (h1 : INT32_MIN ≤ q.num) (h2 : q.num ≤ INT32_MAX) : castInt32 q = q.num := by
  have ht : ratTrunc q = q.num := by
    unfold ratTrunc
    rw [hden]
    simp [Int.tdiv_one]
  unfold castInt32
  rw [ht, if_neg (by unfold INT32_MIN at h1 ⊢; omega),
      if_neg (by unfold INT32_MAX at h2 ⊢; omega)]

/-- Helper: the C condition `number == (int32_t)number` holds exactly when
the number has no fractional part and lies in the int32 range. -/
theorem print_int_branch_iff (q : ℚ) :
    q = ((castInt32 q : Int) : ℚ) ↔
      (q.den = 1 ∧ INT32_MIN ≤ q.num ∧ q.num ≤ INT32_MAX) := by
  constructor
  · intro h
    have hden : q.den = 1 := by rw [h]; exact Rat.den_intCast _
    have hnum : q.num = castInt32 q := by
      conv_lhs => rw [h]
      exact Rat.num_intCast _
    exact ⟨hden, by rw [hnum]; exact (castInt32_range q).1,
           by rw [hnum]; exact (castInt32_range q).2⟩
  · rintro ⟨hden, h1, h2⟩
    have hq : (q.num : ℚ) = q := (Rat.den_eq_one_iff q).mp hden
    rw [castInt32_eq_num q hden h1 h2, hq]

/-- C3, counterexample: 2147483648 = 2^31 has no fractional part, yet
`pval_print` renders it through the `%.3f` branch (with a decimal point),
because the comparison `number == (int32_t)number` casts through int32 and
2^31 is not representable there. -/
theorem claim_C3_counterexample :
    (2147483648 : ℚ).den = 1
  ∧ pval_print (.number (2147483648 : ℚ)) = "2147483648.000"
  ∧ ("2147483648.000" : String) ≠ "2147483648" := by
  refine ⟨rfl, ?_, by simp⟩
  have hne : ¬ ((2147483648 : ℚ) = ((castInt32 (2147483648 : ℚ) : Int) : ℚ)) := by
    rw [show castInt32 (2147483648 : ℚ) = 2147483647 from rfl]
    norm_num
  rw [pval_print, if_neg hne]
  unfold fixed3
  rw [show |(2147483648 : ℚ)| * 1000 = ((2147483648000 : Int) : ℚ) by
    norm_num [abs_of_nonneg]]
  unfold rne
  rw [Int.floor_intCast]
  norm_num [pad3]
  rfl

/-- C3, amended: `pval_print` renders a number as an integer (no decimal
point) exactly when it has no fractional part AND lies within the int32
range; every other number — fractional, or integral but outside int32 — is
rendered through the 3-decimal-digit `%.3f` branch. -/
theorem claim_C3 :
    ∀ q : ℚ, pval_print (.number q) =
      if q.den = 1 ∧ INT32_MIN ≤ q.num ∧ q.num ≤ INT32_MAX
      then toString q.num else fixed3 q := by
  intro q
  by_cases h : q.den = 1 ∧ INT32_MIN ≤ q.num ∧ q.num ≤ INT32_MAX
  · rw [if_pos h, pval_print, if_pos ((print_int_branch_iff q).mpr h),
        castInt32_eq_num q h.1 h.2.1 h.2.2]
  · rw [if_neg h, pval_print, if_neg (fun hc => h ((print_int_branch_iff q).mp hc))]

/-- Helper: setting a slot at index `n` leaves the first `n` slots
unchanged. -/
theorem take_set_self {α : Type} (xs : List α) (n : Nat) (a : α) :
    (xs.set n a).take n = xs.take n := by
  induction xs generalizing n with
  | nil => simp
  | cons x xs ih =>
    cases n with
    | zero => simp
    | succ m => simp [List.set, ih]

/-- Helper: the size_t-to-int32 store is the identity inside the int32
range. -/
theorem wrap32_small (n : Int) (h0 : 0 ≤ n) (h1 : n ≤ 2147483647) : wrap32 n = n := by
  unfold wrap32; omega

/-- C7, counterexample: the claim promises that an append on a list whose
internal bookkeeping is inconsistent is a no-op that leaves the list
completely unchanged and does not consume the item.  The inconsistent state
count = 5 with capacity = 4 (the logical length exceeds the backing
capacity, violating the stated list invariant) passes the code's
`count < 0 || capacity <= 0` check: the list is grown to capacity 8 and the
item is stored at slot 5 (leaving slot 4 uninitialized), so the list is
changed and the item is consumed. -/
theorem claim_C7_counterexample :
    pval_add (.list ⟨5, 4, [some (.number 1), some (.number 2),
        some (.number 3), some (.number 4)]⟩) (some (.number 9))
      = .list ⟨6, 8, [some (.number 1), some (.number 2), some (.number 3),
          some (.number 4), none, some (.number 9), none, none]⟩
  ∧ pval_add (.list ⟨5, 4, [some (.number 1), some (.number 2),
        some (.number 3), some (.number 4)]⟩) (some (.number 9))
      ≠ .list ⟨5, 4, [some (.number 1), some (.number 2),
          some (.number 3), some (.number 4)]⟩ := by
  refine ⟨rfl, ?_⟩
  intro h
  rw [show pval_add (.list ⟨5, 4, [some (.number 1), some (.number 2),
        some (.number 3), some (.number 4)]⟩) (some (.number 9))
      = .list ⟨6, 8, [some (.number 1), some (.number 2), some (.number 3),
          some (.number 4), none, some (.number 9), none, none]⟩ from rfl] at h
  injection h with h'
  exact absurd (congrArg RawList.count h') (by decide)

/-- C7, amended: append adopts the item as the new last logical element,
preserving the existing elements and their order, whenever the list is a
well-formed list value (0 ≤ count ≤ capacity, positive capacity, allocation
matching the capacity field, and no int32 overflow of the doubled capacity);
it is a no-op leaving the list unchanged when the target is absent or not a
list, when the item is absent, or when the bookkeeping fails the code's own
consistency check (negative count or non-positive capacity).  A state whose
count exceeds its capacity is NOT detected by that check (see the
counterexample). -/
theorem claim_C7 :
    (∀ i, pval_add .absent i = .absent)
  ∧ (∀ p i, pval_add (.nonList p) i = .nonList p)
  ∧ (∀ l, pval_add (.list l) none = .list l)
  ∧ (∀ l it, l.count < 0 ∨ l.capacity ≤ 0 → pval_add (.list l) (some it) = .list l)
  ∧ (∀ l it, 0 ≤ l.count → l.count < l.capacity →
      pval_add (.list l) (some it) =
        .list ⟨l.count + 1, l.capacity, l.slots.set l.count.toNat (some it)⟩
      ∧ (l.slots.set l.count.toNat (some it)).take l.count.toNat =
          l.slots.take l.count.toNat
      ∧ (l.count.toNat < l.slots.length →
          (l.slots.set l.count.toNat (some it))[l.count.toNat]? = some (some it)))
  ∧ (∀ l it, 0 < l.capacity → l.count = l.capacity → l.capacity ≤ 1073741823 →
      l.slots.length = l.capacity.toNat →
      pval_add (.list l) (some it) =
        .list ⟨l.count + 1, l.capacity * 2,
               (resizeSlots l.slots (l.capacity * 2).toNat).set l.count.toNat (some it)⟩
      ∧ (resizeSlots l.slots (l.capacity * 2).toNat).set l.count.toNat (some it) =
          l.slots ++ some it :: List.replicate (l.capacity.toNat - 1) none) := by
  refine ⟨fun i => rfl, fun p i => rfl, fun l => rfl, ?_, ?_, ?_⟩
  · intro l it h
    simp [pval_add, h]
  · intro l it h0 h1
    have hc1 : ¬ (l.count < 0 ∨ l.capacity ≤ 0) := by omega
    have hc2 : ¬ (l.count ≥ l.capacity ∧ l.capacity > SIZE_MAX_HALF) := by
      intro h; omega
    have hc3 : ¬ (l.count ≥ l.capacity) := by omega
    refine ⟨?_, take_set_self _ _ _, fun hlt => List.getElem?_set_self hlt⟩
    simp only [pval_add, hc1, if_false, hc2, hc3, if_pos h1]
    simp [h1]
  · intro l it hpos hfull hsmall hlen
    have hw : wrap32 (l.capacity * 2) = l.capacity * 2 :=
      wrap32_small _ (by omega) (by omega)
    have hc1 : ¬ (l.count < 0 ∨ l.capacity ≤ 0) := by omega
    have hc2 : ¬ (l.count ≥ l.capacity ∧ l.capacity > SIZE_MAX_HALF) := by
      unfold SIZE_MAX_HALF
      intro h
      omega
    have hc3 : l.count ≥ l.capacity := by omega
    constructor
    · simp only [pval_add, hc1, if_false, hc2, if_pos hc3, hw]
      rw [if_pos (by omega)]
    · clear hc2
      have hres : resizeSlots l.slots (l.capacity * 2).toNat =
          l.slots ++ List.replicate l.capacity.toNat none := by
        unfold resizeSlots
        rw [List.take_of_length_le (by omega)]
        rw [show (l.capacity * 2).toNat - l.slots.length = l.capacity.toNat by omega]
      rw [hres, List.set_append_right _ _ (by omega)]
      congr 1
      have hcap1 : l.capacity.toNat = (l.capacity.toNat - 1) + 1 := by omega
      rw [show l.count.toNat - l.slots.length = 0 by omega,
          hcap1, List.replicate_succ]
      rfl

/-- Witness for C7 at concrete inputs: a rejected append on a
negative-count list, an in-capacity append, and a growing append. -/
theorem claim_C7_witness :
    pval_add (.list ⟨-1, 4, []⟩) (some (.boolean true)) = .list ⟨-1, 4, []⟩
  ∧ pval_add (.list ⟨1, 4, [some (.number 3), none, none, none]⟩)
        (some (.number 7)) =
      .list ⟨2, 4, [some (.number 3), some (.number 7), none, none]⟩
  ∧ pval_add (.list ⟨4, 4, [some (.number 1), some (.number 2), some (.number 3),
        some (.number 4)]⟩) (some (.number 5)) =
      .list ⟨5, 8, [some (.number 1), some (.number 2), some (.number 3),
          some (.number 4), some (.number 5), none, none, none]⟩ := by
  refine ⟨claim_C7.2.2.2.1 ⟨-1, 4, []⟩ (.boolean true) (Or.inl (by decide)), ?_, ?_⟩
  · have h := (claim_C7.2.2.2.2.1 ⟨1, 4, [some (.number 3), none, none, none]⟩
      (.number 7) (by decide) (by decide)).1
    exact h.trans rfl
  · have h := (claim_C7.2.2.2.2.2 ⟨4, 4, [some (.number 1), some (.number 2),
      some (.number 3), some (.number 4)]⟩ (.number 5)
      (by decide) (by decide) (by decide) (by decide)).1
    exact h.trans rfl

/-- C8: when the remaining text after leading whitespace starts with the two
characters #t (resp. #f), parse returns the boolean true (resp. false) and
advances the cursor by exactly those two characters, whatever follows them;
in particular "#true" parses to the boolean true with "rue" left
unconsumed. -/
theorem claim_C8 :
    (∀ s rest : List Char, skipWs s = '#' :: 't' :: rest →
      pval_parse s = (some (.boolean true), rest))
  ∧ (∀ s rest : List Char, skipWs s = '#' :: 'f' :: rest →
      pval_parse s = (some (.boolean false), rest))
  ∧ pval_parse "#true".toList = (some (.boolean true), ['r', 'u', 'e']) := by
  refine ⟨?_, ?_, by
    simp [pval_parse, parseF, parseAtom, skipWs, numStart, startsWith2, isdigitC, isspaceC]⟩
  · intro s rest h
    simp [pval_parse, parseF, h, parseAtom, numStart, startsWith2, isdigitC]
  · intro s rest h
    simp [pval_parse, parseF, h, parseAtom, numStart, startsWith2, isdigitC]

/-- Witness for C8 at concrete inputs (note the leading whitespace and the
trailing non-delimiter characters). -/
theorem claim_C8_witness :
    pval_parse "  #true".toList = (some (.boolean true), ['r', 'u', 'e'])
  ∧ pval_parse " #false".toList = (some (.boolean false), ['a', 'l', 's', 'e']) :=
  ⟨claim_C8.1 "  #true".toList ['r', 'u', 'e'] (by rfl),
   claim_C8.2.1 " #false".toList ['a', 'l', 's', 'e'] (by rfl)⟩

/-- Helper: cursor discipline of the sign stage of `strtodM`. -/
theorem strtodSign_suffix (s : List Char) : (strtodSign s).2 <:+ s := by
  unfold strtodSign
  split
  · exact List.suffix_cons _ _
  · exact List.suffix_cons _ _
  · exact List.suffix_refl _

theorem strtodESign_suffix (s : List Char) : (strtodESign s).2 <:+ s := by
  unfold strtodESign
  split
  · exact List.suffix_cons _ _
  · exact List.suffix_cons _ _
  · exact List.suffix_refl _

theorem strtodFrac_suffix (s : List Char) : (strtodFrac s).2 <:+ s := by
  unfold strtodFrac
  split
  · exact (List.dropWhile_suffix _).trans (List.suffix_cons _ _)
  · exact List.suffix_refl _

theorem strtodExp_suffix (m : ℚ) (s : List Char) : (strtodExp m s).2 <:+ s := by
  unfold strtodExp
  split
  case _ e t =>
    by_cases he : e = 'e' ∨ e = 'E'
    case pos =>
      rw [if_pos he]
      by_cases hed : ((strtodESign t).2.takeWhile isdigitC).isEmpty = true
      case pos =>
        simp only [hed, if_true]
        exact List.suffix_refl _
      case neg =>
        simp only [hed, Bool.false_eq_true, if_false]
        exact ((List.dropWhile_suffix _).trans
          ((strtodESign_suffix t).trans (List.suffix_cons _ _)))
    case neg =>
      rw [if_neg he]
  case _ =>
    exact List.suffix_refl _

theorem strtodM_suffix (s : List Char) (v : ℚ) (t : List Char)
    (h : strtodM s = some (v, t)) : t <:+ s := by
  unfold strtodM at h
  by_cases hc : (((strtodSign s).2.takeWhile isdigitC).isEmpty &&
      (strtodFrac ((strtodSign s).2.dropWhile isdigitC)).1.isEmpty) = true
  · rw [if_pos hc] at h
    simp at h
  · rw [if_neg hc] at h
    injection h with h'
    have ht := congrArg Prod.snd h'
    simp only at ht
    rw [← ht]
    exact (strtodExp_suffix _ _).trans (((strtodFrac_suffix _).trans
      (List.dropWhile_suffix _)).trans (strtodSign_suffix s))

theorem parseAtom_suffix (n : Nat)
    (hlist : ∀ (acc : List Pval) (s : List Char), (parseListF n acc s).2 <:+ s) :
    ∀ s : List Char, (parseAtom n s).2 <:+ s := by
  intro s
  cases s with
  | nil => simp [parseAtom]
  | cons c rest =>
    simp only [parseAtom]
    by_cases h1 : c = '('
    · rw [if_pos h1]
      exact (hlist [] rest).trans (List.suffix_cons c rest)
    · rw [if_neg h1]
      by_cases h2 : numStart c rest = true
      · rw [if_pos h2]
        rcases hst : strtodM (c :: rest) with _ | ⟨v, t⟩
        · exact List.suffix_refl _
        · exact strtodM_suffix _ v t hst
      · rw [if_neg h2]
        by_cases h3 : startsWith2 '#' 't' (c :: rest) = true
        · rw [if_pos h3]
          exact List.drop_suffix 2 _
        · rw [if_neg h3]
          by_cases h4 : startsWith2 '#' 'f' (c :: rest) = true
          · rw [if_pos h4]
            exact List.drop_suffix 2 _
          · rw [if_neg h4]
            by_cases h5 : ((c :: rest).takeWhile isSymChar).length ≥ 256
            · rw [if_pos h5]
              exact List.drop_suffix 255 _
            · rw [if_neg h5]
              by_cases h6 : ((c :: rest).takeWhile isSymChar).length = 0
              · rw [if_pos h6]
              · rw [if_neg h6]
                exact List.drop_suffix _ _

theorem parseListStep_suffix (n : Nat)
    (hf : ∀ s : List Char, (parseF n s).2 <:+ s)
    (hlist : ∀ (acc : List Pval) (s : List Char), (parseListF n acc s).2 <:+ s) :
    ∀ (acc : List Pval) (s : List Char), (parseListStep n acc s).2 <:+ s := by
  intro acc s
  cases s with
  | nil => simp [parseListStep]
  | cons c rest =>
    simp only [parseListStep]
    by_cases h1 : c = ')'
    · rw [if_pos h1]
      exact List.suffix_cons c rest
    · rw [if_neg h1]
      rcases hp : parseF n (c :: rest) with ⟨op, t⟩
      have ht : t <:+ c :: rest := by
        have h := hf (c :: rest)
        rw [hp] at h
        exact h
      rcases op with _ | p
      · exact ht
      · by_cases he : p.isError = true
        · simp only [he, if_true]
          exact ht
        · simp only [he, Bool.false_eq_true, if_false]
          exact (hlist (acc ++ [p]) t).trans ht

theorem parse_cursor_suffix : ∀ fuel : Nat,
    (∀ s : List Char, (parseF fuel s).2 <:+ s)
  ∧ (∀ (acc : List Pval) (s : List Char), (parseListF fuel acc s).2 <:+ s) := by
  intro fuel
  induction fuel with
  | zero =>
    exact ⟨fun s => by simp only [parseF]; exact List.suffix_refl s,
           fun acc s => by simp only [parseListF]; exact List.suffix_refl s⟩
  | succ n ih =>
    constructor
    · intro s
      simp only [parseF]
      exact (parseAtom_suffix n ih.2 (skipWs s)).trans (List.dropWhile_suffix _)
    · intro acc s
      simp only [parseListF]
      exact (parseListStep_suffix n ih.1 ih.2 acc (skipWs s)).trans (List.dropWhile_suffix _)

theorem parseListStep_close (n : Nat)
    (hB : ∀ (acc : List Pval) (s : List Char) (v : Pval) (t : List Char),
      parseListF n acc s = (some v, t) → v.isError = false →
      ∃ pre, s = pre ++ ')' :: t) :
    ∀ (acc : List Pval) (s : List Char) (v : Pval) (t : List Char),
      parseListStep n acc s = (some v, t) → v.isError = false →
      ∃ pre, s = pre ++ ')' :: t := by
  intro acc s v t h hv
  cases s with
  | nil =>
    simp only [parseListStep, Prod.mk.injEq, Option.some.injEq] at h
    rw [← h.1] at hv
    simp [Pval.isError] at hv
  | cons c rest =>
    simp only [parseListStep] at h
    by_cases h1 : c = ')'
    · rw [if_pos h1] at h
      simp only [Prod.mk.injEq, Option.some.injEq] at h
      exact ⟨[], by rw [h1, h.2]; rfl⟩
    · rw [if_neg h1] at h
      rcases hp : parseF n (c :: rest) with ⟨op, t1⟩
      rw [hp] at h
      have hsfx : t1 <:+ c :: rest := by
        have hx := (parse_cursor_suffix n).1 (c :: rest)
        rw [hp] at hx
        exact hx
      rcases op with _ | p
      · simp only [Prod.mk.injEq, Option.some.injEq] at h
        rw [← h.1] at hv
        simp [Pval.isError] at hv
      · by_cases he : p.isError = true
        · simp only [he, if_true, Prod.mk.injEq, Option.some.injEq] at h
          rw [← h.1] at hv
          rw [hv] at he
          simp at he
        · simp only [he, Bool.false_eq_true, if_false] at h
          obtain ⟨pre1, hpre1⟩ := hB (acc ++ [p]) t1 v t h hv
          obtain ⟨u, hu⟩ := hsfx
          exact ⟨u ++ pre1, by rw [← hu, hpre1, List.append_assoc]⟩

theorem parseListF_close : ∀ (fuel : Nat) (acc : List Pval) (s : List Char)
    (v : Pval) (t : List Char),
    parseListF fuel acc s = (some v, t) → v.isError = false →
    ∃ pre, s = pre ++ ')' :: t := by
  intro fuel
  induction fuel with
  | zero =>
    intro acc s v t h hv
    simp only [parseListF, Prod.mk.injEq, Option.some.injEq] at h
    rw [← h.1] at hv
    simp [Pval.isError] at hv
  | succ n ih =>
    intro acc s v t h hv
    simp only [parseListF] at h
    obtain ⟨pre, hpre⟩ := parseListStep_close n ih acc (skipWs s) v t h hv
    refine ⟨s.takeWhile isspaceC ++ pre, ?_⟩
    conv_lhs => rw [← List.takeWhile_append_dropWhile isspaceC s]
    rw [List.append_assoc]
    exact congrArg _ hpre

/-- C6: inside a list opened by an opening parenthesis, (a) the parser
enters the list loop; (b) reaching end of input before the matching closing
parenthesis yields the SyntaxError "Unexpected EOF, expected ')'"; (c) a
sub-parse that yields an error value is propagated immediately as the loop's
result, whatever partial list `acc` had been built (the result does not
depend on `acc`, which the code discards); (d) when the loop returns a
non-error result, the consumed input ends exactly at a closing parenthesis:
the remaining cursor is what follows the `)`. -/
theorem claim_C6 :
    (∀ (s rest : List Char), skipWs s = '(' :: rest →
      pval_parse s = parseListF (2 * s.length + 1) [] rest)
  ∧ (∀ (fuel : Nat) (acc : List Pval) (s : List Char), skipWs s = [] →
      parseListF (fuel + 1) acc s =
        (some (.error "SyntaxError" "Unexpected EOF, expected ')'"), []))
  ∧ (∀ (fuel : Nat) (acc : List Pval) (s : List Char) (c : Char) (rest : List Char)
      (p : Pval) (t : List Char),
      skipWs s = c :: rest → c ≠ ')' → parseF fuel (c :: rest) = (some p, t) →
      p.isError = true →
      parseListF (fuel + 1) acc s = (some p, t))
  ∧ (∀ (fuel : Nat) (acc : List Pval) (s : List Char) (v : Pval) (t : List Char),
      parseListF fuel acc s = (some v, t) → v.isError = false →
      ∃ pre, s = pre ++ ')' :: t) := by
  refine ⟨?_, ?_, ?_, parseListF_close⟩
  · intro s rest h
    simp [pval_parse, parseF, h, parseAtom]
  · intro fuel acc s h
    simp [parseListF, h, parseListStep]
  · intro fuel acc s c rest p t hs hc hp herr
    simp only [parseListF, hs, parseListStep, if_neg hc, hp, herr, if_true]

/-- Witness for C6 at concrete inputs: entering the loop on "()", the EOF
error on exhausted input, the propagation of a number-syntax error from a
sub-parse, and the closing parenthesis at a successful exit. -/
theorem claim_C6_witness :
    pval_parse "()".toList = parseListF 5 [] [')']
  ∧ parseListF 1 [] [] =
      (some (.error "SyntaxError" "Unexpected EOF, expected ')'"), [])
  ∧ parseListF 2 [.number 1] ['.'] =
      (some (.error "SyntaxError" "Invalid number format"), ['.'])
  ∧ (∃ pre, [')'] = pre ++ ')' :: ([] : List Char)) := by
  refine ⟨claim_C6.1 "()".toList [')'] (by rfl),
          claim_C6.2.1 0 [] [] (by rfl),
          claim_C6.2.2.1 1 [.number 1] ['.'] '.' [] _ _ (by rfl) (by decide)
            (by simp [parseF, parseAtom, numStart, strtodM, strtodSign, strtodFrac,
                      isdigitC, skipWs, isspaceC]) (by rfl),
          claim_C6.2.2.2 1 [] [')'] (.list []) []
            (by simp [parseListF, parseListStep, skipWs, isspaceC]) (by rfl)⟩

/-- C10: the divisor literal -0.0 parses (through the strtod model, where a
negated zero significand is the single rational zero, exactly as the C
double -0.0 compares equal to 0.0 under `==`) to the number 0, and the whole
expression (/ 1 -0.0) evaluates to the DivisionByZeroError rather than an
infinite quotient; more generally the zero test of `builtin_div` catches a
negated-zero divisor for every dividend. -/
theorem claim_C10 :
    strtodM "-0.0".toList = some (0, [])
  ∧ pval_parse "(/ 1 -0.0)".toList =
      (some (.list [.symbol "/", .number 1, .number 0]), [])
  ∧ pval_eval (.list [.symbol "/", .number 1, .number (-0 : ℚ)]) =
      .error "DivisionByZeroError" "Division by zero"
  ∧ (∀ x : ℚ, builtin_div [.number x, .number (-0 : ℚ)] =
      .error "DivisionByZeroError" "Division by zero") := by
  refine ⟨?_, ?_, by rfl, ?_⟩
  · simp [strtodM, strtodSign, strtodFrac, strtodExp, digitsToNat, digitVal, isdigitC]
  · simp [pval_parse, parseF, parseAtom, parseListF, parseListStep, skipWs, isspaceC,
          numStart, startsWith2, isSymChar, strtodM, strtodSign, strtodFrac, strtodExp,
          digitsToNat, digitVal, isdigitC, Pval.isError]
  · intro x
    simp [builtin_div, neg_zero]
